import Mathlib

/-
  Verification of the JSON load/dump/merge utilities of the tiny-utils
  repository (src/jjson.py, src/convertors/dict.py, src/convertors/ns.py,
  src/src/utils/convertors/dicst2ns_ns2dict.py).

  The Python data values are modelled by the inductive type PVal below:
  JSON-shaped values (null, booleans, numbers, strings, lists, dicts)
  plus SimpleNamespace objects.  Python dicts are modelled as association
  lists in insertion order with distinct keys, which is how CPython
  presents them; iteration over keys and per-key in-place assignment on a
  dict therefore corresponds to a structural map over the entries.
  Operations that can raise are modelled with Except PyErr.
-/

namespace TinyUtils

/-- A Python runtime value as used by the jjson module: JSON values plus
SimpleNamespace objects.  Numbers are modelled as integers (no claim
involves float arithmetic). -/
inductive PVal where
  | null : PVal
  | bool (b : Bool) : PVal
  | num (n : Int) : PVal
  | str (s : String) : PVal
  | arr (l : List PVal) : PVal
  | obj (m : List (String × PVal)) : PVal
  | ns (m : List (String × PVal)) : PVal
deriving Repr

/-- A Python dict: association list of string keys to values, in insertion
order. -/
abbrev JObj := List (String × PVal)

mutual

/-- Boolean equality on PVal (the derive handler does not support this
nested inductive, so it is written out). -/
def pvalBeq : PVal → PVal → Bool
  | PVal.null, PVal.null => true
  | PVal.bool a, PVal.bool b => a = b
  | PVal.num a, PVal.num b => a = b
  | PVal.str a, PVal.str b => a = b
  | PVal.arr a, PVal.arr b => pvalBeqList a b
  | PVal.obj a, PVal.obj b => pvalBeqObj a b
  | PVal.ns a, PVal.ns b => pvalBeqObj a b
  | _, _ => false

/-- Boolean equality on lists of PVal. -/
def pvalBeqList : List PVal → List PVal → Bool
  | [], [] => true
  | a :: as, b :: bs => pvalBeq a b && pvalBeqList as bs
  | _, _ => false

/-- Boolean equality on association lists of PVal. -/
def pvalBeqObj : List (String × PVal) → List (String × PVal) → Bool
  | [], [] => true
  | (k, a) :: as, (k', b) :: bs => k = k' && pvalBeq a b && pvalBeqObj as bs
  | _, _ => false

end

/-- The Python exceptions raised by the modelled code paths. -/
inductive PyErr where
  | indexError : PyErr
  | keyError : PyErr
  | typeError : PyErr
  | valueError : PyErr
  | invalidUsage : PyErr
deriving DecidableEq, Repr

/-- Python membership and subscript on a dict: first (unique) matching key. -/
def lookupJ (k : String) : JObj → Option PVal
  | [] => none
  | (k', v) :: rest => if k' = k then some v else lookupJ k rest

mutual

/-- The per-key combination step of merge_dicts (src/jjson.py lines
260-265): if both values are dicts the merge recurses, if both are lists
the later list is appended to the earlier one, otherwise the later value
wins. -/
def mergeVal : PVal → PVal → PVal
  | PVal.obj a, PVal.obj b => PVal.obj (mergeObj a b)
  | PVal.arr a, PVal.arr b => PVal.arr (a ++ b)
  | _, w => w

/-- One pass of the merge loop of merge_dicts (src/jjson.py lines
258-265): for every key of the accumulated dict, if the later dict d also
has that key the two values are combined in place.  The Python loop walks
the key list of the accumulator and assigns each key at most once (dict
keys are unique), so it is a per-entry map. -/
def mergeObj : JObj → JObj → JObj
  | [], _ => []
  | (k, v) :: rest, d =>
    (match lookupJ k d with
     | none => (k, v)
     | some w => (k, mergeVal v w)) :: mergeObj rest d

end

/-- merge_dicts (src/jjson.py lines 254-266): seeds with dict_list[0],
which raises IndexError on an empty list, then folds every later dict
into the seed. -/
def merge_dicts (dict_list : List JObj) : Except PyErr JObj :=
  match dict_list with
  | [] => Except.error PyErr.indexError
  | m :: rest => Except.ok (rest.foldl mergeObj m)

mutual

/-- Modelled from the spec: the per-key merge rule, written from the
words of section 4.3 — if both sides are mappings, recurse; if both sides
are sequences, concatenate preserving order with no deduplication;
otherwise, the later value overwrites. -/
def specCombine : PVal → PVal → PVal
  | PVal.obj a, PVal.obj b => PVal.obj (specMergeObj a b)
  | PVal.arr xs, PVal.arr ys => PVal.arr (xs ++ ys)
  | _, w => w

/-- Modelled from the spec: for every key already present in the result,
if a later mapping has the key the values are combined; keys absent from
the result are never added. -/
def specMergeObj : JObj → JObj → JObj
  | [], _ => []
  | (k, v) :: rest, later =>
    (k, if (lookupJ k later).isSome
        then specCombine v ((lookupJ k later).getD PVal.null)
        else v) :: specMergeObj rest later

end

/-- Modelled from the spec: the reference merge of a non-empty list of
mappings — the result is seeded with the first mapping and every later
mapping is merged into it by the key rule of section 4.3. -/
def specMergeList (first : JObj) (rest : List JObj) : JObj :=
  rest.foldl specMergeObj first

mutual

/-- dict2ns (src/convertors/dict.py lines 26-45): recursively convert a
dict to a SimpleNamespace.  Dict values become namespaces, list values
are rebuilt with dict items converted; other values pass through.  The
source mutates its argument in place; this definition gives the returned
value, and dict2nsObj below also gives the post-call state of the
argument dict (same converted entries, still a dict at the top). -/
def dict2ns : PVal → PVal
  | PVal.obj m => PVal.ns (dict2nsObj m)
  | PVal.arr l => PVal.arr (dict2nsList l)
  | v => v

/-- The per-entry conversion loop of dict2ns: a dict value is assigned
dict2ns of itself, a list value is assigned the rebuilt list, and every
other value is left as it is — which in each case coincides with
applying dict2ns to the value. -/
def dict2nsObj : JObj → JObj
  | [] => []
  | (k, v) :: rest => (k, dict2ns v) :: dict2nsObj rest

/-- The list comprehension of dict2ns: dict items are converted, all
other items (including nested lists) pass through unchanged. -/
def dict2nsList : List PVal → List PVal
  | [] => []
  | v :: rest =>
    (match v with
     | PVal.obj m => PVal.ns (dict2nsObj m)
     | _ => v) :: dict2nsList rest

end

/-- ns2dict (src/convertors/ns.py lines 28-38): vars(ns_obj), a shallow
conversion of the top-level namespace to a dict; values are untouched.
vars raises TypeError on a value without attribute storage. -/
def ns2dict : PVal → Except PyErr PVal
  | PVal.ns m => Except.ok (PVal.obj m)
  | _ => Except.error PyErr.typeError

mutual

/-- ns2dict of src/src/utils/convertors/dicst2ns_ns2dict.py (lines
33-46): recursively convert SimpleNamespace objects to dicts; lists are
mapped recursively; any other value, including a plain dict, is returned
unchanged. -/
def ns2dict_rec : PVal → PVal
  | PVal.ns m => PVal.obj (ns2dictObj m)
  | PVal.arr l => PVal.arr (ns2dictList l)
  | v => v

/-- Entry-wise part of the recursive ns2dict. -/
def ns2dictObj : JObj → JObj
  | [] => []
  | (k, v) :: rest => (k, ns2dict_rec v) :: ns2dictObj rest

/-- List part of the recursive ns2dict. -/
def ns2dictList : List PVal → List PVal
  | [] => []
  | v :: rest => ns2dict_rec v :: ns2dictList rest

end

mutual

/-- A value contains no SimpleNamespace anywhere (true of everything
json.load can produce). -/
def nsFree : PVal → Bool
  | PVal.ns _ => false
  | PVal.arr l => nsFreeList l
  | PVal.obj m => nsFreeObj m
  | _ => true

/-- nsFree on dict entries. -/
def nsFreeObj : JObj → Bool
  | [] => true
  | (_, v) :: rest => nsFree v && nsFreeObj rest

/-- nsFree on list items. -/
def nsFreeList : List PVal → Bool
  | [] => true
  | v :: rest => nsFree v && nsFreeList rest

end

/-- The first character of an identifier: a letter or underscore. -/
def isIdentStart (c : Char) : Bool := c.isAlpha || c = '_'

/-- A later character of an identifier: alphanumeric or underscore. -/
def isIdentChar (c : Char) : Bool := c.isAlphanum || c = '_'

/-- The string is a Python identifier. -/
def isIdentifier (s : String) : Bool :=
  match s.data with
  | [] => false
  | c :: cs => isIdentStart c && cs.all isIdentChar

mutual

/-- Every key of every mapping or namespace in the value, at any depth,
is an identifier string. -/
def identKeys : PVal → Bool
  | PVal.obj m => identKeysObj m
  | PVal.ns m => identKeysObj m
  | PVal.arr l => identKeysList l
  | _ => true

/-- identKeys on dict entries. -/
def identKeysObj : JObj → Bool
  | [] => true
  | (k, v) :: rest => isIdentifier k && identKeys v && identKeysObj rest

/-- identKeys on list items. -/
def identKeysList : List PVal → Bool
  | [] => true
  | v :: rest => identKeys v && identKeysList rest

end

/-- The value is a plain dict. -/
def isObjVal : PVal → Bool
  | PVal.obj _ => true
  | _ => false

/-- The value is neither a dict nor a list holding a dict item: exactly
the values that dict2ns leaves unchanged when met as a dict value. -/
def shallowObjFreeVal : PVal → Bool
  | PVal.obj _ => false
  | PVal.arr l => l.all fun x => !isObjVal x
  | _ => true

/-- Some dict value is a dict, or a list with a dict item: dict2ns will
replace something inside this dict. -/
def hasShallowObj (m : JObj) : Bool := m.any fun kv => !shallowObjFreeVal kv.2

/-- No dict value is a dict or a list with a dict item. -/
def noShallowObj (m : JObj) : Bool := m.all fun kv => shallowObjFreeVal kv.2

mutual

/-- The value is a plain dict, or holds one at any depth inside lists,
dicts or namespaces. -/
def containsObj : PVal → Bool
  | PVal.obj _ => true
  | PVal.arr l => containsObjList l
  | PVal.ns m => containsObjObj m
  | _ => false

/-- containsObj over dict or namespace entries. -/
def containsObjObj : JObj → Bool
  | [] => false
  | (_, v) :: rest => containsObj v || containsObjObj rest

/-- containsObj over list items. -/
def containsObjList : List PVal → Bool
  | [] => false
  | v :: rest => containsObj v || containsObjList rest

end

/-- Python truthiness of a value: empty containers, zero, the empty
string, None and False are falsy; a SimpleNamespace is always truthy. -/
def pyTruthy : PVal → Bool
  | PVal.null => false
  | PVal.bool b => b
  | PVal.num n => n != 0
  | PVal.str s => s != ""
  | PVal.arr l => !l.isEmpty
  | PVal.obj m => !m.isEmpty
  | PVal.ns _ => true

mutual

/-- convert_to_dict inside j_dumps (src/jjson.py lines 67-75):
recursively flatten SimpleNamespace objects into dicts, rebuilding lists
and dicts along the way. -/
def convert_to_dict : PVal → PVal
  | PVal.ns m => PVal.obj (convertEntries m)
  | PVal.obj m => PVal.obj (convertEntries m)
  | PVal.arr l => PVal.arr (convertItems l)
  | v => v

/-- convert_to_dict over dict entries. -/
def convertEntries : JObj → JObj
  | [] => []
  | (k, v) :: rest => (k, convert_to_dict v) :: convertEntries rest

/-- convert_to_dict over list items. -/
def convertItems : List PVal → List PVal
  | [] => []
  | v :: rest => convert_to_dict v :: convertItems rest

end

/-- The result of j_loads as seen by a caller: a loaded value, the
Python False returned by the exception handlers, or the Python None
returned for a path that does not exist. -/
inductive JLoadResult where
  | val : PVal → JLoadResult
  | fail : JLoadResult
  | nores : JLoadResult
deriving Repr

/-- The Python str.strip method: remove whitespace from both ends
(written over the character list so that it evaluates by kernel
reduction). -/
def pyStrip (s : String) : String :=
  String.mk
    (((s.data.dropWhile Char.isWhitespace).reverse.dropWhile
      Char.isWhitespace).reverse)

/-- The Python str.endswith test, written over the character lists. -/
def hasSuffix (s suffix : String) : Bool :=
  List.isSuffixOf suffix.data s.data

/-- clean_string (src/jjson.py lines 350-377): strip surrounding
whitespace and raise ValueError on an empty result. -/
def clean_string (jjson : String) : Except PyErr String :=
  let cleaned := pyStrip jjson
  if cleaned = "" then Except.error PyErr.valueError else Except.ok cleaned

/-- The string branch of j_loads (src/jjson.py lines 195-210), with the
external json.loads abstracted as the parse argument.  The second
component records, in order, every string handed to the parser: the
branch cleans once, parses once and reports failure, with no repair or
retry.  The ValueError of clean_string and the JSONDecodeError of the
parse are both caught by the handlers of j_loads, which return False. -/
def j_loads_str (parse : String → Option PVal) (s : String) :
    JLoadResult × List String :=
  match clean_string s with
  | Except.error _ => (JLoadResult.fail, [])
  | Except.ok c =>
    match parse c with
    | some v => (JLoadResult.val v, [c])
    | none => (JLoadResult.fail, [c])

/-- Strip leading and trailing whitespace from a character list. -/
def stripChars (l : List Char) : List Char :=
  ((l.dropWhile Char.isWhitespace).reverse.dropWhile Char.isWhitespace).reverse

/-- Remove the given suffix from a character list when present. -/
def dropSuffixIf (l pat : List Char) : List Char :=
  if List.isSuffixOf pat l then l.take (l.length - pat.length) else l

/-- Modelled from the spec: strip a Markdown code-fence wrapper from a
string (part of the repair pass the spec describes; no function in src
performs this). -/
def stripCodeFence (s : String) : String :=
  let t := (pyStrip s).data
  if List.isPrefixOf "```".data t then
    let u := t.drop 3
    let u := if List.isPrefixOf "json".data u then u.drop 4 else u
    let u := stripChars u
    let u := dropSuffixIf u "```".data
    String.mk (stripChars u)
  else String.mk t

/-- Left-to-right non-overlapping substring replacement over character
lists, with the list length as structural fuel. -/
def replaceFuel (pat rep : List Char) : Nat → List Char → List Char
  | 0, l => l
  | _, [] => []
  | fuel + 1, c :: cs =>
    if pat ≠ [] ∧ List.isPrefixOf pat (c :: cs) then
      rep ++ replaceFuel pat rep fuel ((c :: cs).drop pat.length)
    else c :: replaceFuel pat rep fuel cs

/-- The Python str.replace method, written over the character lists. -/
def pyReplace (s pat rep : String) : String :=
  String.mk (replaceFuel pat.data rep.data s.data.length s.data)

/-- Modelled from the spec: the best-effort repair pass — strip a
code-fence wrapper, fix doubled backslashes and over-escaped quotes. -/
def specRepair (s : String) : String :=
  pyReplace (pyReplace (stripCodeFence s) "\\\\" "\\") "\\\"" "\""

/-- A concrete stand-in for the external strict JSON parser, accepting
exactly the text of the empty object.  Used to evaluate the loader at
concrete inputs. -/
def trivialParse (s : String) : Option PVal :=
  if s = "{}" then some (PVal.obj []) else none

/-- A directory tree: files carry their name and their parsed JSON
content (the external json.load is abstracted as the already-parsed
value), directories carry their entries in listing order. -/
inductive FSEntry where
  | file (name : String) (content : PVal) : FSEntry
  | dir (name : String) (entries : List FSEntry) : FSEntry
deriving Repr

/-- The immediate child files of a directory, in listing order. -/
def entryFiles : List FSEntry → List (String × PVal)
  | [] => []
  | FSEntry.file n c :: rest => (n, c) :: entryFiles rest
  | FSEntry.dir _ _ :: rest => entryFiles rest

mutual

/-- The recursive part of the os.walk order: the contribution of the
subdirectories of a directory listing, top-down. -/
def walkDirs : List FSEntry → List (String × PVal)
  | [] => []
  | e :: rest => walkDirsEntry e ++ walkDirs rest

/-- The walk contribution of one entry: a file contributes nothing here
(immediate files are emitted separately), a subdirectory contributes its
own files and then its subdirectories. -/
def walkDirsEntry : FSEntry → List (String × PVal)
  | FSEntry.file _ _ => []
  | FSEntry.dir _ es => entryFiles es ++ walkDirs es

end

/-- The files visited by os.walk over a directory, in walk order: the
files of the directory itself, then the contents of each subdirectory,
top-down.  This is the enumeration the directory branch of j_loads
(src/jjson.py lines 166-172) iterates over. -/
def walkFiles (entries : List FSEntry) : List (String × PVal) :=
  entryFiles entries ++ walkDirs entries

mutual

/-- All files of the tree at any depth, in tree order (a reference
enumeration used to characterise the walk). -/
def allFiles : List FSEntry → List (String × PVal)
  | [] => []
  | e :: rest => allFilesEntry e ++ allFiles rest

/-- All files contributed by one entry, at any depth. -/
def allFilesEntry : FSEntry → List (String × PVal)
  | FSEntry.file n c => [(n, c)]
  | FSEntry.dir _ es => allFiles es

end

/-- Python iteration over a value, as list.extend sees it: a dict yields
its keys, a list its items, a string its characters; numbers, booleans
and None are not iterable and raise TypeError. -/
def iterElems : PVal → Except PyErr (List PVal)
  | PVal.obj m => Except.ok (m.map fun kv => PVal.str kv.1)
  | PVal.arr l => Except.ok l
  | PVal.str s => Except.ok (s.data.map fun c => PVal.str (String.mk [c]))
  | _ => Except.error PyErr.typeError

/-- The json_data accumulation of the directory branch (src/jjson.py
lines 166-170): every file whose name ends in .json is parsed and the
parsed value is passed to list.extend — so a dict contributes its keys,
not itself.  A non-iterable parsed value raises and the surrounding
handler of j_loads turns it into False. -/
def gatherJson : List (String × PVal) → Except PyErr (List PVal)
  | [] => Except.ok []
  | (n, c) :: rest =>
    if hasSuffix n ".json" then
      match iterElems c with
      | Except.error e => Except.error e
      | Except.ok elems =>
        match gatherJson rest with
        | Except.error e => Except.error e
        | Except.ok tail => Except.ok (elems ++ tail)
    else gatherJson rest

/-- The csv_data accumulation of the directory branch (src/jjson.py
lines 171-172): a .csv file contributes its row dicts; a failed read
contributes nothing (the helper logs and returns the empty list). -/
def gatherCsv : List (String × PVal) → List PVal
  | [] => []
  | (n, c) :: rest =>
    if hasSuffix n ".csv" then
      (match c with
       | PVal.arr rows => rows
       | _ => []) ++ gatherCsv rest
    else gatherCsv rest

/-- Checks that every collected item is a dict and extracts them (the
all-isinstance-dict test of src/jjson.py line 175). -/
def asObjList : List PVal → Option (List JObj)
  | [] => some []
  | PVal.obj m :: rest => (asObjList rest).map (m :: ·)
  | _ :: _ => none

/-- The directory branch of j_loads (src/jjson.py lines 163-180): walk
the tree, extend json_data and csv_data, and if the combined list is
non-empty and all dicts, merge them; otherwise return the combined list.
An exception while extending is caught by the handlers of j_loads,
which return False. -/
def j_loads_dir (entries : List FSEntry) : JLoadResult :=
  match gatherJson (walkFiles entries) with
  | Except.error _ => JLoadResult.fail
  | Except.ok jd =>
    let combined := jd ++ gatherCsv (walkFiles entries)
    if combined.isEmpty then JLoadResult.val (PVal.arr combined)
    else
      match asObjList combined with
      | some objs =>
        match merge_dicts objs with
        | Except.ok m => JLoadResult.val (PVal.obj m)
        | Except.error _ => JLoadResult.val (PVal.arr combined)
      | none => JLoadResult.val (PVal.arr combined)

/-- The source of a load, after resolving the runtime type tests of
j_loads: an existing directory, an existing single file (content none
when the file cannot be read or parsed), a path that does not exist, an
in-memory dict, or a raw string. -/
inductive JSource where
  | pathDir (entries : List FSEntry) : JSource
  | pathFile (name : String) (content : Option PVal) : JSource
  | pathMissing (p : String) : JSource
  | mem (m : JObj) : JSource
  | text (s : String) : JSource

/-- j_loads (src/jjson.py lines 104-217): dispatch on the source kind.
A missing path logs and returns None; a failed file read or parse and a
failed string parse are caught and return False; a failed csv read
returns the empty list; an in-memory dict passes through. -/
def j_loads (parse : String → Option PVal) (src : JSource) : JLoadResult :=
  match src with
  | JSource.pathDir es => j_loads_dir es
  | JSource.pathFile n c =>
    if hasSuffix n ".csv" then
      match c with
      | some (PVal.arr rows) => JLoadResult.val (PVal.arr rows)
      | _ => JLoadResult.val (PVal.arr [])
    else
      match c with
      | some v => JLoadResult.val v
      | none => JLoadResult.fail
  | JSource.pathMissing _ => JLoadResult.nores
  | JSource.mem m => JLoadResult.val (PVal.obj m)
  | JSource.text s => (j_loads_str parse s).1

/-- j_loads_ns (src/jjson.py lines 219-252): load, and if the result is
truthy convert it (element-wise for a list) with dict2ns; every falsy
result — False, None, but also a successfully loaded empty dict, empty
list or empty string — becomes None. -/
def j_loads_ns (parse : String → Option PVal) (src : JSource) : Option PVal :=
  match j_loads parse src with
  | JLoadResult.val v =>
    if pyTruthy v then
      some (match v with
            | PVal.arr l => PVal.arr (l.map dict2ns)
            | _ => dict2ns v)
    else none
  | _ => none

/-- The data flow of j_dumps (src/jjson.py lines 63-98) up to the value
written to the destination: flatten namespaces, and in an append mode
read the destination with j_loads; when the existing value is truthy the
source rebinds data to the return value of dict.update, which is None,
so None is what gets serialised.  The result none models the early
return inside the append branch when update raises (a truthy non-dict
existing value, or a new value a dict cannot update from), where nothing
is written at all.  The models stays exact for dict existing content and
dict new data, the only shapes the dump claims concern. -/
def j_dumps_core (data : PVal) (existing : JLoadResult) (mode : String) :
    Option PVal :=
  let d := convert_to_dict data
  if mode = "a" ∨ mode = "a+" ∨ mode = "+a" then
    match existing with
    | JLoadResult.val e =>
      if pyTruthy e then
        match e, d with
        | PVal.obj _, PVal.obj _ => some PVal.null
        | _, _ => none
      else some d
    | _ => some d
  else some d

mutual

/-- replace_key_in_json (src/jjson.py lines 311-326) as the value left
in place after the call, with the KeyError the source raises made
explicit: for every key of the dict, when the key equals old_key the
entry is popped and re-inserted under new_key (at the end when new_key
is a fresh key), after which the source immediately evaluates
data[key] with the popped key — a KeyError whenever old_key and new_key
differ.  When they are equal the entry just moves to the end and its
value is traversed.  Dict and list values are traversed recursively,
other values are skipped by the isinstance test. -/
def replaceKeyVal (oldK newK : String) : PVal → Except PyErr PVal
  | PVal.obj m =>
    match replaceKeyObj oldK newK m with
    | Except.error e => Except.error e
    | Except.ok m' => Except.ok (PVal.obj m')
  | PVal.arr l =>
    match replaceKeyList oldK newK l with
    | Except.error e => Except.error e
    | Except.ok l' => Except.ok (PVal.arr l')
  | v => Except.ok v

/-- The key loop of replace_key_in_json over the snapshot of the keys
of the dict. -/
def replaceKeyObj (oldK newK : String) : JObj → Except PyErr JObj
  | [] => Except.ok []
  | (k, v) :: rest =>
    if k = oldK then
      if oldK = newK then
        match replaceKeyVal oldK newK v with
        | Except.error e => Except.error e
        | Except.ok v' =>
          match replaceKeyObj oldK newK rest with
          | Except.error e => Except.error e
          | Except.ok rest' => Except.ok (rest' ++ [(k, v')])
      else Except.error PyErr.keyError
    else
      match replaceKeyVal oldK newK v with
      | Except.error e => Except.error e
      | Except.ok v' =>
        match replaceKeyObj oldK newK rest with
        | Except.error e => Except.error e
        | Except.ok rest' => Except.ok ((k, v') :: rest')

/-- The list branch of replace_key_in_json: every item is processed in
place. -/
def replaceKeyList (oldK newK : String) : List PVal → Except PyErr (List PVal)
  | [] => Except.ok []
  | v :: rest =>
    match replaceKeyVal oldK newK v with
    | Except.error e => Except.error e
    | Except.ok v' =>
      match replaceKeyList oldK newK rest with
      | Except.error e => Except.error e
      | Except.ok rest' => Except.ok (v' :: rest')

end

mutual

theorem pvalBeq_iff : ∀ a b : PVal, pvalBeq a b = true ↔ a = b
  | PVal.null, b => by cases b <;> simp [pvalBeq]
  | PVal.bool _, b => by cases b <;> simp [pvalBeq]
  | PVal.num _, b => by cases b <;> simp [pvalBeq]
  | PVal.str _, b => by cases b <;> simp [pvalBeq]
  | PVal.arr a, b => by
    cases b <;> simp [pvalBeq]
    exact pvalBeqList_iff a _
  | PVal.obj a, b => by
    cases b <;> simp [pvalBeq]
    exact pvalBeqObj_iff a _
  | PVal.ns a, b => by
    cases b <;> simp [pvalBeq]
    exact pvalBeqObj_iff a _

theorem pvalBeqList_iff : ∀ a b : List PVal, pvalBeqList a b = true ↔ a = b
  | [], b => by cases b <;> simp [pvalBeqList]
  | x :: xs, b => by
    cases b with
    | nil => simp [pvalBeqList]
    | cons y ys =>
      simp only [pvalBeqList, Bool.and_eq_true, List.cons.injEq]
      exact and_congr (pvalBeq_iff x y) (pvalBeqList_iff xs ys)

theorem pvalBeqObj_iff : ∀ a b : List (String × PVal), pvalBeqObj a b = true ↔ a = b
  | [], b => by cases b <;> simp [pvalBeqObj]
  | (k, x) :: xs, b => by
    cases b with
    | nil => simp [pvalBeqObj]
    | cons p ys =>
      obtain ⟨k', y⟩ := p
      simp only [pvalBeqObj, Bool.and_eq_true, List.cons.injEq, Prod.mk.injEq,
        decide_eq_true_eq]
      rw [pvalBeq_iff x y, pvalBeqObj_iff xs ys, and_assoc]

end

instance : DecidableEq PVal := fun a b => decidable_of_iff _ (pvalBeq_iff a b)

mutual

theorem mergeVal_eq_specCombine : ∀ v w, mergeVal v w = specCombine v w
  | PVal.obj a, PVal.obj b => by
    simp only [mergeVal, specCombine]
    exact congrArg PVal.obj (mergeObj_eq_specMergeObj a b)
  | PVal.arr a, PVal.arr b => rfl
  | PVal.null, w => by cases w <;> rfl
  | PVal.bool _, w => by cases w <;> rfl
  | PVal.num _, w => by cases w <;> rfl
  | PVal.str _, w => by cases w <;> rfl
  | PVal.arr _, PVal.null => rfl
  | PVal.arr _, PVal.bool _ => rfl
  | PVal.arr _, PVal.num _ => rfl
  | PVal.arr _, PVal.str _ => rfl
  | PVal.arr _, PVal.obj _ => rfl
  | PVal.arr _, PVal.ns _ => rfl
  | PVal.obj _, PVal.null => rfl
  | PVal.obj _, PVal.bool _ => rfl
  | PVal.obj _, PVal.num _ => rfl
  | PVal.obj _, PVal.str _ => rfl
  | PVal.obj _, PVal.arr _ => rfl
  | PVal.obj _, PVal.ns _ => rfl
  | PVal.ns _, w => by cases w <;> rfl

theorem mergeObj_eq_specMergeObj : ∀ (a d : JObj), mergeObj a d = specMergeObj a d
  | [], _ => rfl
  | (k, v) :: rest, d => by
    simp only [mergeObj, specMergeObj]
    refine congrArg₂ (· :: ·) ?_ (mergeObj_eq_specMergeObj rest d)
    cases h : lookupJ k d with
    | none => simp [h]
    | some w => simp [h, mergeVal_eq_specCombine v w]

end

theorem foldl_mergeObj_eq_spec (rest : List JObj) :
    ∀ m, rest.foldl mergeObj m = rest.foldl specMergeObj m := by
  induction rest with
  | nil => intro m; rfl
  | cons d rest ih =>
    intro m
    simp only [List.foldl_cons, mergeObj_eq_specMergeObj m d]
    exact ih (specMergeObj m d)


/-- Claim C1: for every non-empty list of mappings merge_dicts equals the
reference merge written from the words of the spec — seeded with the
first mapping, recursing on mapping pairs, concatenating sequence pairs,
overwriting otherwise, never adding keys absent from the seed — and on
the concrete scenario pair the nested scalar is overwritten and the
lists are concatenated in order. -/
theorem merge_dicts_matches_reference :
    (∀ (m : JObj) (rest : List JObj),
      merge_dicts (m :: rest) = Except.ok (specMergeList m rest)) ∧
    merge_dicts
      [[("a", PVal.obj [("x", PVal.num 1)]), ("b", PVal.arr [PVal.num 1])],
       [("a", PVal.obj [("x", PVal.num 2)]), ("b", PVal.arr [PVal.num 2])]] =
    Except.ok
      [("a", PVal.obj [("x", PVal.num 2)]),
       ("b", PVal.arr [PVal.num 1, PVal.num 2])] := by
  constructor
  · intro m rest
    simp only [merge_dicts, specMergeList, foldl_mergeObj_eq_spec]
  · rfl

/-- Claim C6 is false on the code: on the empty input list merge_dicts
evaluates dict_list[0] and raises IndexError — precisely an indexing
into an empty sequence — which is not the distinguishable invalid-usage
signal the claim asserts. -/
theorem merge_dicts_empty_counterexample :
    merge_dicts [] = Except.error PyErr.indexError ∧
    PyErr.indexError ≠ PyErr.invalidUsage := by
  exact ⟨rfl, by decide⟩

/-- Claim C6 amended: on the empty input list merge_dicts fails with the
IndexError of indexing into the empty sequence; no separate
invalid-usage signal exists. -/
theorem merge_dicts_empty_indexerror :
    merge_dicts [] = Except.error PyErr.indexError := rfl

/-- Claim C2 evaluated at the failing input: dumping the mapping with
key b in append mode over a destination holding the truthy mapping with
key a rebinds data to the None returned by dict.update, so the value
written is JSON null, not the merged union. -/
theorem j_dumps_append_merge_writes_null :
    j_dumps_core (PVal.obj [("b", PVal.num 2)])
      (JLoadResult.val (PVal.obj [("a", PVal.num 1)])) "a+" =
      some PVal.null ∧
    (PVal.null ≠ PVal.obj [("a", PVal.num 1), ("b", PVal.num 2)]) := by
  exact ⟨rfl, by decide⟩

/-- Claim C3 evaluated at the failing input: a directory holding two
JSON files with mappings a-to-1 and b-to-2 is loaded by extending the
accumulator with each parsed mapping, which contributes its keys, so the
result is the list of the two key strings — neither the merged mapping
the claim states nor any mapping at all. -/
theorem j_loads_dir_extends_keys :
    j_loads_dir
      [FSEntry.file "a.json" (PVal.obj [("a", PVal.num 1)]),
       FSEntry.file "b.json" (PVal.obj [("b", PVal.num 2)])] =
    JLoadResult.val (PVal.arr [PVal.str "a", PVal.str "b"]) ∧
    (PVal.arr [PVal.str "a", PVal.str "b"] ≠ PVal.obj [("a", PVal.num 1)]) := by
  exact ⟨rfl, by decide⟩

/-- Claim C4 evaluated at the failing input: renaming key name to
category_name over the list of the two mappings of the scenario raises
KeyError — after popping old_key the source immediately subscripts the
dict with the popped key — instead of returning the renamed structure. -/
theorem replace_key_raises_keyerror :
    replaceKeyVal "name" "category_name"
      (PVal.arr [PVal.obj [("name", PVal.str "x")],
                 PVal.obj [("other", PVal.obj [("name", PVal.str "y")])]]) =
    Except.error PyErr.keyError := rfl

mutual

theorem ns2dict_rec_id : ∀ v, nsFree v = true → ns2dict_rec v = v
  | PVal.null, _ => rfl
  | PVal.bool _, _ => rfl
  | PVal.num _, _ => rfl
  | PVal.str _, _ => rfl
  | PVal.obj _, _ => rfl
  | PVal.arr l, h => by
    simp only [nsFree] at h
    simp only [ns2dict_rec]
    exact congrArg PVal.arr (ns2dictList_id l h)
  | PVal.ns _, h => by simp [nsFree] at h

theorem ns2dictList_id : ∀ l, nsFreeList l = true → ns2dictList l = l
  | [], _ => rfl
  | v :: rest, h => by
    simp only [nsFreeList, Bool.and_eq_true] at h
    simp only [ns2dictList]
    exact congrArg₂ (· :: ·) (ns2dict_rec_id v h.1) (ns2dictList_id rest h.2)

end

mutual

theorem round_val : ∀ v, nsFree v = true → ns2dict_rec (dict2ns v) = v
  | PVal.null, _ => rfl
  | PVal.bool _, _ => rfl
  | PVal.num _, _ => rfl
  | PVal.str _, _ => rfl
  | PVal.obj m, h => by
    simp only [nsFree] at h
    simp only [dict2ns, ns2dict_rec]
    exact congrArg PVal.obj (round_obj m h)
  | PVal.arr l, h => by
    simp only [nsFree] at h
    simp only [dict2ns, ns2dict_rec]
    exact congrArg PVal.arr (round_list l h)
  | PVal.ns _, h => by simp [nsFree] at h

theorem round_obj : ∀ m, nsFreeObj m = true → ns2dictObj (dict2nsObj m) = m
  | [], _ => rfl
  | (k, v) :: rest, h => by
    simp only [nsFreeObj, Bool.and_eq_true] at h
    simp only [dict2nsObj, ns2dictObj]
    exact congrArg₂ (· :: ·) (congrArg (Prod.mk k) (round_val v h.1))
      (round_obj rest h.2)

theorem round_list : ∀ l, nsFreeList l = true → ns2dictList (dict2nsList l) = l
  | [], _ => rfl
  | v :: rest, h => by
    simp only [nsFreeList, Bool.and_eq_true] at h
    cases v with
    | obj m =>
      simp only [dict2nsList, ns2dictList, ns2dict_rec]
      refine congrArg₂ (· :: ·) ?_ (round_list rest h.2)
      exact congrArg PVal.obj (round_obj m (by simpa [nsFree] using h.1))
    | ns m => simp [nsFree] at h
    | arr l2 =>
      simp only [dict2nsList, ns2dictList]
      exact congrArg₂ (· :: ·) (ns2dict_rec_id _ h.1) (round_list rest h.2)
    | null =>
      simp only [dict2nsList, ns2dictList, ns2dict_rec]
      exact congrArg₂ (· :: ·) rfl (round_list rest h.2)
    | bool b =>
      simp only [dict2nsList, ns2dictList, ns2dict_rec]
      exact congrArg₂ (· :: ·) rfl (round_list rest h.2)
    | num n =>
      simp only [dict2nsList, ns2dictList, ns2dict_rec]
      exact congrArg₂ (· :: ·) rfl (round_list rest h.2)
    | str s =>
      simp only [dict2nsList, ns2dictList, ns2dict_rec]
      exact congrArg₂ (· :: ·) rfl (round_list rest h.2)

end

theorem dict2nsList_id_of_no_obj :
    ∀ l, l.all (fun x => !isObjVal x) = true → dict2nsList l = l := by
  intro l
  induction l with
  | nil => intro _; rfl
  | cons v rest ih =>
    intro h
    simp only [List.all_cons, Bool.and_eq_true] at h
    cases v <;> simp only [dict2nsList] <;>
      first
      | exact congrArg₂ (· :: ·) rfl (ih h.2)
      | (simp [isObjVal] at h)

theorem dict2ns_flat_id : ∀ v, shallowObjFreeVal v = true → dict2ns v = v := by
  intro v h
  cases v with
  | obj m => simp [shallowObjFreeVal] at h
  | arr l =>
    simp only [shallowObjFreeVal] at h
    simp only [dict2ns]
    exact congrArg PVal.arr (dict2nsList_id_of_no_obj l h)
  | ns m => rfl
  | null => rfl
  | bool b => rfl
  | num n => rfl
  | str s => rfl

theorem dict2nsObj_flat_id : ∀ m, noShallowObj m = true → dict2nsObj m = m := by
  intro m
  induction m with
  | nil => intro _; rfl
  | cons kv rest ih =>
    intro h
    simp only [noShallowObj, List.all_cons, Bool.and_eq_true] at h
    simp only [dict2nsObj]
    exact congrArg₂ (· :: ·)
      (congrArg (Prod.mk kv.1) (dict2ns_flat_id kv.2 h.1))
      (ih (by simpa [noShallowObj] using h.2))

/-- Claim C8 is false on the code: with the shallow vars-based ns2dict of
src/convertors/ns.py, the round trip on the nested, all-identifier-keyed
mapping that sends a to the inner mapping sending b to 1 returns the
mapping whose inner value is still a SimpleNamespace, not the original
mapping. -/
theorem namespace_round_trip_counterexample :
    ns2dict (dict2ns (PVal.obj [("a", PVal.obj [("b", PVal.num 1)])])) =
      Except.ok (PVal.obj [("a", PVal.ns [("b", PVal.num 1)])]) ∧
    PVal.obj [("a", PVal.ns [("b", PVal.num 1)])] ≠
      PVal.obj [("a", PVal.obj [("b", PVal.num 1)])] ∧
    identKeysObj [("a", PVal.obj [("b", PVal.num 1)])] = true := by
  exact ⟨rfl, by decide, by decide⟩

/-- Claim C8 amended: the round trip is the identity for the shallow
ns2dict of src/convertors/ns.py only when no mapping value sits directly
under the top level (as a value or as an item of a list value); with the
recursive ns2dict of src/src/utils/convertors/dicst2ns_ns2dict.py it is
the identity for every namespace-free mapping with identifier keys at
every depth. -/
theorem namespace_round_trip_amended :
    (∀ m : JObj, identKeysObj m = true → noShallowObj m = true →
      ns2dict (dict2ns (PVal.obj m)) = Except.ok (PVal.obj m)) ∧
    (∀ m : JObj, identKeysObj m = true → nsFreeObj m = true →
      ns2dict_rec (dict2ns (PVal.obj m)) = PVal.obj m) := by
  constructor
  · intro m _ h
    simp only [dict2ns, ns2dict]
    exact congrArg (fun x => Except.ok (PVal.obj x)) (dict2nsObj_flat_id m h)
  · intro m _ h
    simp only [dict2ns, ns2dict_rec]
    exact congrArg PVal.obj (round_obj m h)

/-- Witness for the amended namespace round trip at concrete inputs: a
flat mapping for the shallow converter, a nested mapping with a list of
mappings for the recursive converter. -/
theorem namespace_round_trip_amended_witness :
    ns2dict (dict2ns (PVal.obj [("a", PVal.num 1)])) =
      Except.ok (PVal.obj [("a", PVal.num 1)]) ∧
    ns2dict_rec (dict2ns (PVal.obj
        [("a", PVal.obj [("b", PVal.num 1)]),
         ("c", PVal.arr [PVal.obj [("d", PVal.num 2)], PVal.num 3])])) =
      PVal.obj
        [("a", PVal.obj [("b", PVal.num 1)]),
         ("c", PVal.arr [PVal.obj [("d", PVal.num 2)], PVal.num 3])] := by
  have h := namespace_round_trip_amended
  exact ⟨h.1 _ (by decide) (by decide), h.2 _ (by decide) (by decide)⟩

theorem dict2nsList_all_no_obj :
    ∀ l, (dict2nsList l).all (fun x => !isObjVal x) = true := by
  intro l
  induction l with
  | nil => rfl
  | cons v rest ih =>
    cases v <;> simp only [dict2nsList, List.all_cons, Bool.and_eq_true] <;>
      exact ⟨rfl, ih⟩

theorem dict2ns_shallowFree : ∀ v, shallowObjFreeVal (dict2ns v) = true := by
  intro v
  cases v with
  | obj m => rfl
  | arr l =>
    simp only [dict2ns, shallowObjFreeVal]
    exact dict2nsList_all_no_obj l
  | ns m => rfl
  | null => rfl
  | bool b => rfl
  | num n => rfl
  | str s => rfl

theorem dict2nsList_ne_of_obj :
    ∀ l, l.all (fun x => !isObjVal x) = false → dict2nsList l ≠ l := by
  intro l
  induction l with
  | nil => intro h; simp at h
  | cons v rest ih =>
    intro h heq
    simp only [List.all_cons, Bool.and_eq_true] at h
    cases v with
    | obj m =>
      simp only [dict2nsList, List.cons.injEq] at heq
      exact PVal.noConfusion heq.1
    | null =>
      simp only [isObjVal, Bool.not_false, Bool.true_and] at h
      simp only [dict2nsList, List.cons.injEq] at heq
      exact ih h heq.2
    | bool b =>
      simp only [isObjVal, Bool.not_false, Bool.true_and] at h
      simp only [dict2nsList, List.cons.injEq] at heq
      exact ih h heq.2
    | num n =>
      simp only [isObjVal, Bool.not_false, Bool.true_and] at h
      simp only [dict2nsList, List.cons.injEq] at heq
      exact ih h heq.2
    | str s =>
      simp only [isObjVal, Bool.not_false, Bool.true_and] at h
      simp only [dict2nsList, List.cons.injEq] at heq
      exact ih h heq.2
    | arr l2 =>
      simp only [isObjVal, Bool.not_false, Bool.true_and] at h
      simp only [dict2nsList, List.cons.injEq] at heq
      exact ih h heq.2
    | ns m =>
      simp only [isObjVal, Bool.not_false, Bool.true_and] at h
      simp only [dict2nsList, List.cons.injEq] at heq
      exact ih h heq.2

theorem dict2ns_ne_of_shallow :
    ∀ v, shallowObjFreeVal v = false → dict2ns v ≠ v := by
  intro v h
  cases v with
  | obj m => exact fun heq => PVal.noConfusion heq
  | arr l =>
    simp only [shallowObjFreeVal] at h
    intro heq
    simp only [dict2ns, PVal.arr.injEq] at heq
    exact dict2nsList_ne_of_obj l h heq
  | ns m => simp [shallowObjFreeVal] at h
  | null => simp [shallowObjFreeVal] at h
  | bool b => simp [shallowObjFreeVal] at h
  | num n => simp [shallowObjFreeVal] at h
  | str s => simp [shallowObjFreeVal] at h

theorem dict2nsObj_ne_of_shallow :
    ∀ m, hasShallowObj m = true → dict2nsObj m ≠ m := by
  intro m
  induction m with
  | nil => intro h; simp [hasShallowObj] at h
  | cons kv rest ih =>
    obtain ⟨k, v⟩ := kv
    intro h heq
    simp only [hasShallowObj, List.any_cons, Bool.or_eq_true] at h
    simp only [dict2nsObj, List.cons.injEq, Prod.mk.injEq] at heq
    rcases h with h | h
    · exact dict2ns_ne_of_shallow v (by simpa using h) heq.1.2
    · exact ih (by simpa [hasShallowObj] using h) heq.2

/-- Claim C10 is false as stated: converting the mapping that sends a to
an inner mapping and c to a doubly nested list holding a mapping does
mutate the argument — but the mapping inside the doubly nested list is
left as a plain mapping, so the original mapping still contains a plain
mapping after the conversion returns. -/
theorem dict2ns_mutation_counterexample :
    containsObjObj
      [("a", PVal.obj [("x", PVal.num 1)]),
       ("c", PVal.arr [PVal.arr [PVal.obj [("d", PVal.num 1)]]])] = true ∧
    dict2nsObj
      [("a", PVal.obj [("x", PVal.num 1)]),
       ("c", PVal.arr [PVal.arr [PVal.obj [("d", PVal.num 1)]]])] =
      [("a", PVal.ns [("x", PVal.num 1)]),
       ("c", PVal.arr [PVal.arr [PVal.obj [("d", PVal.num 1)]]])] ∧
    containsObjObj
      (dict2nsObj
        [("a", PVal.obj [("x", PVal.num 1)]),
         ("c", PVal.arr [PVal.arr [PVal.obj [("d", PVal.num 1)]]])]) = true := by
  exact ⟨rfl, rfl, rfl⟩

/-- Claim C10 amended: dict2ns mutates its dict argument in place — it
is changed whenever some value is a mapping or a list holding a mapping
item, and afterwards no value is a mapping or a list holding a mapping
item; mappings nested deeper, inside lists of lists, survive as plain
mappings (as the counterexample shows). -/
theorem dict2ns_mutates_shallow :
    (∀ m : JObj, noShallowObj (dict2nsObj m) = true) ∧
    (∀ m : JObj, hasShallowObj m = true → dict2nsObj m ≠ m) := by
  constructor
  · intro m
    induction m with
    | nil => rfl
    | cons kv rest ih =>
      simp only [dict2nsObj, noShallowObj, List.all_cons, Bool.and_eq_true]
      exact ⟨dict2ns_shallowFree kv.2, by simpa [noShallowObj] using ih⟩
  · exact dict2nsObj_ne_of_shallow

/-- Witness for the amended mutation statement at a concrete input: the
mapping sending a to a mapping is changed by the conversion and the
result has no shallow mapping values. -/
theorem dict2ns_mutates_shallow_witness :
    noShallowObj (dict2nsObj [("a", PVal.obj [("x", PVal.num 1)])]) = true ∧
    hasShallowObj [("a", PVal.obj [("x", PVal.num 1)])] = true ∧
    dict2nsObj [("a", PVal.obj [("x", PVal.num 1)])] ≠
      [("a", PVal.obj [("x", PVal.num 1)])] := by
  have h := dict2ns_mutates_shallow
  exact ⟨h.1 _, by decide, h.2 _ (by decide)⟩

theorem walkFiles_mem : ∀ (es : List FSEntry) (p : String × PVal),
    p ∈ walkFiles es ↔ p ∈ allFiles es
  | [], p => by simp [walkFiles, entryFiles, walkDirs, allFiles]
  | FSEntry.file n c :: rest, p => by
    have hr := walkFiles_mem rest p
    simp only [walkFiles, entryFiles, walkDirs, walkDirsEntry, allFiles,
      allFilesEntry, List.mem_append, List.mem_cons, List.not_mem_nil,
      List.nil_append, false_or] at *
    tauto
  | FSEntry.dir nm es2 :: rest, p => by
    have h2 := walkFiles_mem es2 p
    have hr := walkFiles_mem rest p
    simp only [walkFiles, entryFiles, walkDirs, walkDirsEntry, allFiles,
      allFilesEntry, List.mem_append, List.mem_cons] at *
    tauto

/-- Claim C9 is false on the code: for a directory whose only entry is a
subdirectory holding a JSON file, the walk enumerates the nested file
although the immediate child file list is empty, and the load observably
parses it — deep files are loaded by the primary load path. -/
theorem shallow_enumeration_counterexample :
    walkFiles
      [FSEntry.dir "sub" [FSEntry.file "b.json" (PVal.obj [("b", PVal.num 2)])]] =
      [("b.json", PVal.obj [("b", PVal.num 2)])] ∧
    entryFiles
      [FSEntry.dir "sub" [FSEntry.file "b.json" (PVal.obj [("b", PVal.num 2)])]] =
      [] ∧
    j_loads_dir
      [FSEntry.dir "sub" [FSEntry.file "b.json" (PVal.obj [("b", PVal.num 2)])]] =
      JLoadResult.val (PVal.arr [PVal.str "b"]) := by
  exact ⟨rfl, rfl, rfl⟩

/-- Claim C9 amended: directory enumeration on the primary load path is
recursive — the os.walk loop of j_loads — so the files read are exactly
the files at any depth of the directory tree, not the immediate children
only. -/
theorem directory_enumeration_recursive :
    ∀ (es : List FSEntry) (p : String × PVal),
      p ∈ walkFiles es ↔ p ∈ allFiles es :=
  walkFiles_mem

/-- Claim C5 is false on the code: for the fenced string the loader
strips whitespace, hands the parser exactly one string — the fence still
in place — and reports failure; it never attempts the repaired string
the claim describes, although that string would have parsed. -/
theorem repair_retry_counterexample :
    (j_loads_str trivialParse "```json\n{}\n```").1 = JLoadResult.fail ∧
    (j_loads_str trivialParse "```json\n{}\n```").2 =
      [pyStrip "```json\n{}\n```"] ∧
    (j_loads_str trivialParse "```json\n{}\n```").2 ≠
      [pyStrip "```json\n{}\n```",
       specRepair (pyStrip "```json\n{}\n```")] ∧
    trivialParse (specRepair (pyStrip "```json\n{}\n```")) =
      some (PVal.obj []) := by
  refine ⟨rfl, rfl, ?_, rfl⟩
  have h2 : (j_loads_str trivialParse "```json\n{}\n```").2 =
      [pyStrip "```json\n{}\n```"] := rfl
  rw [h2]
  intro h
  have hl := congrArg List.length h
  simp at hl

/-- Claim C5 amended: on a string input the loader strips surrounding
whitespace once, hands the parser at most one string — the stripped
input itself — and on parse failure reports failure immediately, with no
repair pass and no second attempt. -/
theorem loader_single_parse_no_repair :
    ∀ (parse : String → Option PVal) (s : String),
      ((j_loads_str parse s).2 = [] ∨ (j_loads_str parse s).2 = [pyStrip s]) ∧
      (parse (pyStrip s) = none →
        (j_loads_str parse s).1 = JLoadResult.fail) := by
  intro parse s
  simp only [j_loads_str, clean_string]
  by_cases h : pyStrip s = ""
  · simp [h]
  · simp only [h, ite_false, if_neg h]
    cases hp : parse (pyStrip s) with
    | none => simp
    | some v => simp

/-- Witness for the amended loader statement at a concrete input: a
non-JSON string is handed to the parser once, stripped, and the load
fails. -/
theorem loader_single_parse_no_repair_witness :
    (j_loads_str trivialParse "nope").2 = [pyStrip "nope"] ∧
    (j_loads_str trivialParse "nope").1 = JLoadResult.fail := by
  have h := loader_single_parse_no_repair trivialParse "nope"
  exact ⟨rfl, h.2 (by decide)⟩

/-- Claim C7 is false on the code: loading the text of an empty JSON
object succeeds with the empty mapping, yet j_loads_ns returns None for
it — the same output it returns for a missing path — so a caller of
j_loads_ns cannot tell a successful empty load from a failure. -/
theorem sentinel_claim_counterexample :
    j_loads trivialParse (JSource.text "{}") = JLoadResult.val (PVal.obj []) ∧
    j_loads_ns trivialParse (JSource.text "{}") = none ∧
    j_loads_ns trivialParse (JSource.pathMissing "missing.json") = none := by
  exact ⟨rfl, rfl, rfl⟩

/-- Claim C7 amended: j_loads itself keeps failures apart from the empty
mapping — a missing path yields None, a failed string parse yields False,
and both differ from a loaded empty mapping — but j_loads_ns maps every
falsy success, the empty mapping included, to None, the same value it
returns on failure, so the distinction is lost for j_loads_ns. -/
theorem loader_sentinels_amended :
    (∀ (parse : String → Option PVal) (p : String),
      j_loads parse (JSource.pathMissing p) = JLoadResult.nores) ∧
    (∀ (parse : String → Option PVal) (s : String), parse (pyStrip s) = none →
      j_loads parse (JSource.text s) = JLoadResult.fail) ∧
    (JLoadResult.nores ≠ JLoadResult.val (PVal.obj []) ∧
      JLoadResult.fail ≠ JLoadResult.val (PVal.obj [])) ∧
    (∀ (parse : String → Option PVal) (src : JSource),
      j_loads parse src = JLoadResult.val (PVal.obj []) →
      j_loads_ns parse src = none) := by
  refine ⟨fun _ _ => rfl, ?_, ⟨by simp, by simp⟩, ?_⟩
  · intro parse s hp
    show (j_loads_str parse s).1 = JLoadResult.fail
    simp only [j_loads_str, clean_string]
    by_cases h : pyStrip s = ""
    · simp [h]
    · simp [h, hp]
  · intro parse src h
    simp only [j_loads_ns, h]
    rfl

/-- Witness for the amended sentinel statement at concrete inputs. -/
theorem loader_sentinels_amended_witness :
    j_loads trivialParse (JSource.pathMissing "gone.json") = JLoadResult.nores ∧
    j_loads trivialParse (JSource.text "not json") = JLoadResult.fail ∧
    j_loads_ns trivialParse (JSource.text "{}") = none := by
  have h := loader_sentinels_amended
  exact ⟨h.1 trivialParse "gone.json",
         h.2.1 trivialParse "not json" (by decide),
         h.2.2.2 trivialParse (JSource.text "{}") rfl⟩

end TinyUtils
